import Mathlib

/-!
Shallow embedding of the Logistic Matrix Factorization model of
`src/mf.py` (class `LogisticMatrixFactorization`).

Conventions of the embedding:
* numpy arrays become Lean lists over `ℚ` (real arithmetic is modelled by
  exact rationals); 2-D arrays become lists of rows;
* the mutable model state (`self.P`, `self.Q`, `self.b_u`, `self.b_i`,
  `self.b`) is threaded explicitly through a record `MFParams`;
* fallible code (the length validation performed by
  `sklearn.utils.shuffle`) is modelled with `Except`;
* the real-valued scalar functions of the base class that are not part of
  `src/` (`_sigmoid`), together with `np.log` and `np.sqrt`, are
  irrational-valued and are therefore carried as rational-valued function
  fields of the model record: every theorem below is parametric in them
  and every concrete evaluation instantiates them with explicit functions;
* the pseudo-random permutation drawn by `sklearn.utils.shuffle` from
  `random_state=seed` is carried as a function field `shufflePerm` from the
  array length to a list of indices (the Mersenne-Twister stream itself is
  external to the repository); determinism in the seed is inherited from
  it being a function.

Integer division by a zero `batch_size` raises `ZeroDivisionError` in
Python while `Nat` division returns `0`; theorems about batching therefore
carry the hypothesis `0 < batch_size`.
-/

namespace MF

/-- Elementwise scalar multiple of a vector, numpy's `c * v`. -/
def smul (c : ℚ) (v : List ℚ) : List ℚ := v.map (fun x => c * x)

/-- Elementwise sum of two vectors, numpy's `v + w` (all call sites pass
vectors of equal length; `zipWith` truncates to the shorter one). -/
def vadd (v w : List ℚ) : List ℚ := List.zipWith (fun a b => a + b) v w

/-- `np.dot` on two 1-D arrays. -/
def dot (v w : List ℚ) : ℚ := (List.zipWith (fun a b => a * b) v w).sum

/-- `np.mean` of a 1-D array (Lean yields `0` on `[]`, where numpy
yields NaN; no claim evaluates the mean of an empty array). -/
def mean (xs : List ℚ) : ℚ := xs.sum / xs.length

/-- Hyperparameters and the external real-valued/random functions the
model closes over (see the module comment). `lr`, `reg`, `batch_size`,
`n_epochs` are the fields of the dataclass used by `fit`. -/
structure MFModel where
  n_epochs : Nat
  lr : ℚ
  reg : ℚ
  batch_size : Nat
  sigmoid : ℚ → ℚ
  log : ℚ → ℚ
  sqrt : ℚ → ℚ
  shufflePerm : Nat → List Nat

/-- The mutable parameter state of `LogisticMatrixFactorization`:
factor matrices `P` (users) and `Q` (items), bias vectors `b_u`, `b_i`,
and the global bias `b`. -/
structure MFParams where
  P : List (List ℚ)
  Q : List (List ℚ)
  b_u : List ℚ
  b_i : List ℚ
  b : ℚ

/-- Row read `self.P(user_id)` of a parameter-store-wrapped matrix
(out-of-range reads, which raise `IndexError` in Python, yield `[]`). -/
def getRow (M : List (List ℚ)) (i : Nat) : List ℚ := M.getD i []

/-- Modelled from the spec: `utils.optimizer.SGD.update` (the file
`utils/optimizer.py` is not under `src/`). Per §4.1 of the spec, `update`
performs `param[index] -= learning_rate * gradient` in place and touches
only the indexed row. Row variant, for the factor matrices. -/
def sgdUpdateRow (lr : ℚ) (M : List (List ℚ)) (i : Nat) (grad : List ℚ) :
    List (List ℚ) :=
  M.set i (List.zipWith (fun p g => p - lr * g) (getRow M i) grad)

/-- Modelled from the spec: `utils.optimizer.SGD.update`, scalar variant,
for the bias vectors (`param[index] -= learning_rate * gradient`). -/
def sgdUpdateAt (lr : ℚ) (v : List ℚ) (i : Nat) (grad : ℚ) : List ℚ :=
  v.set i (v.getD i 0 - lr * grad)

/-- `_predict_pair`: `sigmoid(np.dot(P(u), Q(i)) + b_u(u) + b_i(i) + b)`. -/
def predictPair (m : MFModel) (s : MFParams) (user_id item_id : Nat) : ℚ :=
  m.sigmoid
    (dot (getRow s.P user_id) (getRow s.Q item_id)
      + s.b_u.getD user_id 0 + s.b_i.getD item_id 0 + s.b)

/-- `predict`: `user_ids, item_ids = X[:, 0], X[:, 1]`, then one
`_predict_pair` per zipped id pair. -/
def predict (m : MFModel) (s : MFParams) (X : List (List Nat)) : List ℚ :=
  (List.zip (X.map (fun row => row.getD 0 0)) (X.map (fun row => row.getD 1 0))).map
    (fun ui => predictPair m s ui.1 ui.2)

/-- The residual of one training example in `fit`:
`err = (click / pscore) - self._predict_pair(user_id, item_id)`. -/
def exampleErr (m : MFModel) (s : MFParams) (user_id item_id : Nat)
    (click pscore : ℚ) : ℚ :=
  click / pscore - predictPair m s user_id item_id

/-- `_update_P`: `grad_P = -err * Q(item_id) + reg * P(user_id)`, then
`P.update(grad_P, user_id)`. -/
def update_P (m : MFModel) (s : MFParams) (user_id item_id : Nat)
    (err : ℚ) : MFParams :=
  { s with
    P := sgdUpdateRow m.lr s.P user_id
      (vadd (smul (-err) (getRow s.Q item_id)) (smul m.reg (getRow s.P user_id))) }

/-- `_update_Q`: `grad_Q = -err * P(user_id) + reg * Q(item_id)`, then
`Q.update(grad_Q, item_id)`. Note the read of `P` happens on the state
this function receives. -/
def update_Q (m : MFModel) (s : MFParams) (user_id item_id : Nat)
    (err : ℚ) : MFParams :=
  { s with
    Q := sgdUpdateRow m.lr s.Q item_id
      (vadd (smul (-err) (getRow s.P user_id)) (smul m.reg (getRow s.Q item_id))) }

/-- `_update_b_u`: `grad_b_u = -err + reg * b_u(user_id)`, then
`b_u.update(grad_b_u, user_id)`. -/
def update_b_u (m : MFModel) (s : MFParams) (user_id : Nat) (err : ℚ) :
    MFParams :=
  { s with b_u := sgdUpdateAt m.lr s.b_u user_id (-err + m.reg * s.b_u.getD user_id 0) }

/-- `_update_b_i`: `grad_b_i = -err + reg * b_i(item_id)`, then
`b_i.update(grad_b_i, item_id)`. -/
def update_b_i (m : MFModel) (s : MFParams) (item_id : Nat) (err : ℚ) :
    MFParams :=
  { s with b_i := sgdUpdateAt m.lr s.b_i item_id (-err + m.reg * s.b_i.getD item_id 0) }

/-- One training example, in the textual order of the body of the inner
loop of `fit`: `user_id, item_id = feature[0], feature[1]`; compute `err`;
then `_update_P`; `_update_Q`; `_update_b_u`; `_update_b_i`, each applied
to the state left by the previous call. -/
def trainExample (m : MFModel) (s : MFParams) (ex : List Nat × ℚ × ℚ) :
    MFParams :=
  let user_id := ex.1.getD 0 0
  let item_id := ex.1.getD 1 0
  let err := exampleErr m s user_id item_id ex.2.1 ex.2.2
  let s1 := update_P m s user_id item_id err
  let s2 := update_Q m s1 user_id item_id err
  let s3 := update_b_u m s2 user_id err
  update_b_i m s3 item_id err

/-- The reading of §4.3 of the spec in which all four gradients of one
example are computed from the pre-update values of `P` and `Q` (strict
read-before-write), written down only to be compared with
`trainExample`. -/
def trainExamplePre (m : MFModel) (s : MFParams) (ex : List Nat × ℚ × ℚ) :
    MFParams :=
  let user_id := ex.1.getD 0 0
  let item_id := ex.1.getD 1 0
  let err := exampleErr m s user_id item_id ex.2.1 ex.2.2
  let gP := vadd (smul (-err) (getRow s.Q item_id)) (smul m.reg (getRow s.P user_id))
  let gQ := vadd (smul (-err) (getRow s.P user_id)) (smul m.reg (getRow s.Q item_id))
  let gbu := -err + m.reg * s.b_u.getD user_id 0
  let gbi := -err + m.reg * s.b_i.getD item_id 0
  { P := sgdUpdateRow m.lr s.P user_id gP
    Q := sgdUpdateRow m.lr s.Q item_id gQ
    b_u := sgdUpdateAt m.lr s.b_u user_id gbu
    b_i := sgdUpdateAt m.lr s.b_i item_id gbi
    b := s.b }

/-- One split of the data: aligned `(features, labels, pscores)` arrays,
as handed to `fit` for the train and validation splits. -/
structure DataTriple where
  X : List (List Nat)
  y : List ℚ
  ps : List ℚ

/-- `sklearn.utils.shuffle(xs, ..., random_state=seed)` applied to one of
the aligned arrays: the seed-determined index permutation `idxs` is read
through `get?` (so that only in-range indices select a row). -/
def applyPerm (idxs : List Nat) (xs : List α) : List α :=
  idxs.filterMap (fun j => xs.get? j)

/-- The sub-array sizes `np.array_split` uses: a length-`len` array split
into `n` parts gives `len % n` parts of size `len / n + 1` followed by
`n - len % n` parts of size `len / n`. -/
def splitSizes (len n : Nat) : List Nat :=
  List.replicate (len % n) (len / n + 1) ++ List.replicate (n - len % n) (len / n)

/-- Cut a list into consecutive pieces of the given sizes. -/
def splitBySizes : List Nat → List α → List (List α)
  | [], _ => []
  | sz :: rest, xs => xs.take sz :: splitBySizes rest (xs.drop sz)

/-- `np.array_split(xs, n)`. -/
def arraySplit (xs : List α) (n : Nat) : List (List α) :=
  splitBySizes (splitSizes xs.length n) xs

/-- The error message modelling the `ValueError` that
`sklearn.utils.shuffle` raises when the arrays it is given do not all
share one length. -/
def lengthMismatchError : String :=
  "Found input variables with inconsistent numbers of samples"

/-- `_get_batch_data`: shuffle the three aligned arrays with the seeded
permutation (`sklearn.utils.shuffle` first validates that the three
lengths agree and raises `ValueError` otherwise, modelled as `.error`),
then `np.array_split` each into `len // batch_size + 1` parts. -/
def getBatchData (m : MFModel) (train_X : List (List Nat)) (train_y : List ℚ)
    (train_pscores : List ℚ) :
    Except String (List (List (List Nat)) × List (List ℚ) × List (List ℚ)) :=
  if train_X.length = train_y.length ∧ train_y.length = train_pscores.length then
    let idxs := m.shufflePerm train_X.length
    let sX := applyPerm idxs train_X
    let sy := applyPerm idxs train_y
    let sps := applyPerm idxs train_pscores
    Except.ok
      (arraySplit sX (sX.length / m.batch_size + 1),
       arraySplit sy (sy.length / m.batch_size + 1),
       arraySplit sps (sps.length / m.batch_size + 1))
  else
    Except.error lengthMismatchError

/-- Python's `zip` over three aligned sequences (truncating to the
shortest, as `zip` does). -/
def zip3 (xs : List α) (ys : List β) (zs : List γ) : List (α × β × γ) :=
  xs.zip (ys.zip zs)

/-- Modelled from the spec: `PointwiseBaseRecommender._cross_entropy_loss`
(the base class `src/base.py` is not under `src/`). Per §4.2 of the spec
it returns the scalar
`mean( (label/pscore) * -log(p) + (1 - label/pscore) * -log(1-p) )`. -/
def crossEntropyLoss (m : MFModel) (y_trues : List ℚ) (y_scores : List ℚ)
    (pscores : List ℚ) : ℚ :=
  mean ((zip3 y_trues y_scores pscores).map
    (fun t => t.1 / t.2.2 * (-(m.log t.2.1)) + (1 - t.1 / t.2.2) * (-(m.log (1 - t.2.1)))))

/-- `np.std`: the square root of the population variance (the square root
is the model's carried real-function field). -/
def stdDev (m : MFModel) (xs : List ℚ) : ℚ :=
  m.sqrt (mean (xs.map (fun x => (x - mean xs) * (x - mean xs))))

/-- The body of the per-batch loop of `fit`: run every example of the
batch through the four updates in sequence, then record the batch's
cross-entropy loss on the post-update parameters
(`batch_loss.append(batch_logloss)`). -/
def runBatch (m : MFModel) (acc : MFParams × List ℚ)
    (batch : List (List Nat) × List ℚ × List ℚ) : MFParams × List ℚ :=
  let s := (zip3 batch.1 batch.2.1 batch.2.2).foldl (trainExample m) acc.1
  let preds := predict m s batch.1
  (s, acc.2 ++ [crossEntropyLoss m batch.2.1 preds batch.2.2])

/-- The accumulator of the epoch loop of `fit`; beside the parameter
state it carries the recorded traces (`train_loss`, `val_loss`) and, for
inspection, the per-epoch batch-loss lists and the parameter state at
each epoch end. -/
structure EpochAcc where
  s : MFParams
  trainLoss : List (ℚ × ℚ)
  valLoss : List ℚ
  batchTrace : List (List ℚ)
  epochParams : List MFParams

/-- One epoch of `fit`: fold the batch loop over the (fixed) batch list,
append `(np.mean(batch_loss), np.std(batch_loss))` to `train_loss`, then
compute one validation loss over the whole validation split and append it
to `val_loss`. -/
def runEpoch (m : MFModel) (batches : List (List (List Nat) × List ℚ × List ℚ))
    (val : DataTriple) (acc : EpochAcc) : EpochAcc :=
  let r := batches.foldl (runBatch m) (acc.s, [])
  let vl := crossEntropyLoss m val.y (predict m r.1 val.X) val.ps
  { s := r.1
    trainLoss := acc.trainLoss ++ [(mean r.2, stdDev m r.2)]
    valLoss := acc.valLoss ++ [vl]
    batchTrace := acc.batchTrace ++ [r.2]
    epochParams := acc.epochParams ++ [r.1] }

/-- What `fit` produces: the Python return value `(train_loss, val_loss)`
plus the final parameter state, the number of `_get_batch_data`
invocations `fit` performed (`shuffleCalls`), and the inspection traces
of `EpochAcc`. -/
structure FitResult where
  trainLoss : List (ℚ × ℚ)
  valLoss : List ℚ
  params : MFParams
  shuffleCalls : Nat
  batchLossTrace : List (List ℚ)
  epochParams : List MFParams

/-- `fit`: batch the (copied) training triple ONCE via `_get_batch_data`
(hence `shuffleCalls := 1`, the one call site executed, placed before the
loop), set the global bias `b` to `np.mean(train_y)`, then run
`n_epochs` epochs over the same batch list. -/
def fit (m : MFModel) (s0 : MFParams) (train val : DataTriple) :
    Except String FitResult :=
  match getBatchData m train.X train.y train.ps with
  | Except.error e => Except.error e
  | Except.ok bd =>
    let s1 : MFParams := { s0 with b := mean train.y }
    let batches := zip3 bd.1 bd.2.1 bd.2.2
    let final := (List.range m.n_epochs).foldl
      (fun acc _ => runEpoch m batches val acc)
      { s := s1, trainLoss := [], valLoss := [], batchTrace := [], epochParams := [] }
    Except.ok
      { trainLoss := final.trainLoss
        valLoss := final.valLoss
        params := final.s
        shuffleCalls := 1
        batchLossTrace := final.batchTrace
        epochParams := final.epochParams }

/-- The heap cells visible around a call to `fit`: the caller-owned train
and validation arrays and the model-owned parameter arrays. Every
in-place write of the source (`SGD.update`) targets the parameter cells;
`fit` moreover copies the train arrays (`train_X.copy()`, ...) before
handing them to `_get_batch_data`, and `sklearn.utils.shuffle` itself
returns fresh arrays. -/
structure World where
  callerTrain : DataTriple
  callerVal : DataTriple
  params : MFParams

/-- A call `model.fit(train, val)` acting on the visible heap: the caller
arrays are read (never written), the parameter cells receive the trained
state on success. -/
def fitWorld (m : MFModel) (w : World) : Except String FitResult × World :=
  match fit m w.params w.callerTrain w.callerVal with
  | Except.error e => (Except.error e, w)
  | Except.ok r => (Except.ok r, { w with params := r.params })

/-! Concrete instantiations of the external function fields, used to
evaluate the embedding on explicit inputs. -/

/-- A concrete (constantly zero) stand-in for the real-valued function
fields when their values are irrelevant to the property evaluated. -/
def cZeroFun : ℚ → ℚ := fun _ => 0

/-- The identity shuffle permutation. -/
def cPermId : Nat → List Nat := fun n => List.range n

/-- The reversing shuffle permutation (a non-trivial permutation). -/
def cPermRev : Nat → List Nat := fun n => (List.range n).reverse

/-- Model for the spec's worked update scenario: `lr = 0.1`,
`reg = 0.01`. -/
def cModel1 : MFModel :=
  { n_epochs := 1, lr := 1/10, reg := 1/100, batch_size := 1,
    sigmoid := cZeroFun, log := cZeroFun, sqrt := cZeroFun, shufflePerm := cPermId }

/-- Parameter state for the spec's worked update scenario:
`P = [[1,1]]`, `Q = [[2,2]]`. -/
def cParams1 : MFParams :=
  { P := [[1, 1]], Q := [[2, 2]], b_u := [0], b_i := [0], b := 0 }

/-- Model with `lr = 1`, `reg = 0`, making the read-order of the four
updates visible in the trained values. -/
def cModel2 : MFModel :=
  { n_epochs := 1, lr := 1, reg := 0, batch_size := 1,
    sigmoid := cZeroFun, log := cZeroFun, sqrt := cZeroFun, shufflePerm := cPermId }

/-- One-user-one-item parameter state with distinct entries. -/
def cParams2 : MFParams :=
  { P := [[1]], Q := [[2]], b_u := [3], b_i := [4], b := 0 }

/-- Two-epoch model used to count `_get_batch_data` invocations. -/
def cModel3 : MFModel :=
  { n_epochs := 2, lr := 1, reg := 0, batch_size := 1,
    sigmoid := cZeroFun, log := cZeroFun, sqrt := cZeroFun, shufflePerm := cPermId }

/-- A two-example training split on the single user/item pair. -/
def cTrain3 : DataTriple :=
  { X := [[0, 0], [0, 0]], y := [1, 0], ps := [1, 1] }

/-- A one-example validation split. -/
def cVal3 : DataTriple :=
  { X := [[0, 0]], y := [1], ps := [1] }

/-- One-epoch model with `batch_size = 2`. -/
def cModel4 : MFModel :=
  { n_epochs := 1, lr := 1, reg := 0, batch_size := 2,
    sigmoid := cZeroFun, log := cZeroFun, sqrt := cZeroFun, shufflePerm := cPermId }

/-- A three-example training split, which `batch_size = 2` cuts into two
batches (`3 // 2 + 1 = 2`). -/
def cTrain4 : DataTriple :=
  { X := [[0, 0], [0, 0], [0, 0]], y := [1, 0, 1], ps := [1, 1, 1] }

/-- Model with `batch_size = 2` and the reversing shuffle. -/
def cModel5 : MFModel :=
  { n_epochs := 1, lr := 1, reg := 0, batch_size := 2,
    sigmoid := cZeroFun, log := cZeroFun, sqrt := cZeroFun, shufflePerm := cPermRev }

/-- Three aligned rows for the batching claims. -/
def cX5 : List (List Nat) := [[0, 0], [1, 1], [2, 2]]

/-- Labels aligned with `cX5`. -/
def cy5 : List ℚ := [1, 0, 1]

/-- Propensity scores aligned with `cX5`. -/
def cps5 : List ℚ := [1, 1, 1]

/-- Model with `batch_size = 2` and the identity shuffle, for the batch
count at a length divisible by the batch size. -/
def cModel6 : MFModel :=
  { n_epochs := 1, lr := 1, reg := 0, batch_size := 2,
    sigmoid := cZeroFun, log := cZeroFun, sqrt := cZeroFun, shufflePerm := cPermId }

/-- Four aligned rows: length `4` is divisible by `batch_size = 2`. -/
def cX6 : List (List Nat) := [[0, 0], [1, 1], [2, 2], [3, 3]]

/-- Labels aligned with `cX6`. -/
def cy6 : List ℚ := [1, 0, 1, 0]

/-- Propensity scores aligned with `cX6`. -/
def cps6 : List ℚ := [1, 1, 1, 1]

/-- A misaligned training split: 1 feature row, 2 labels, 1 pscore. -/
def cTrain9 : DataTriple :=
  { X := [[0, 0]], y := [1, 0], ps := [1] }

/-! Helper lemmas. -/

lemma getD_set_self {α : Type _} (l : List α) (n : Nat) (a d : α)
    (h : n < l.length) : (l.set n a).getD n d = a := by
  simp [List.getD_eq_getElem?_getD, List.getElem?_set_self', h]

lemma zipWith_gradStep (lr c d : ℚ) (p q : List ℚ) :
    List.zipWith (fun a g => a - lr * g) p (vadd (smul c q) (smul d p))
      = List.zipWith (fun a b => a - lr * (c * b + d * a)) p q := by
  induction p generalizing q with
  | nil => simp [vadd, smul]
  | cons a p ih =>
    cases q with
    | nil => simp [vadd, smul]
    | cons b q =>
      simp only [smul, vadd, List.map_cons, List.zipWith_cons_cons]
      exact congrArg (List.cons _) (ih q)

lemma trainExample_P_row (m : MFModel) (s : MFParams) (u i : Nat)
    (click pscore : ℚ) (hu : u < s.P.length) :
    (trainExample m s ([u, i], click, pscore)).P.getD u []
      = List.zipWith
          (fun p q => p - m.lr * (-(exampleErr m s u i click pscore) * q + m.reg * p))
          (getRow s.P u) (getRow s.Q i) := by
  simp only [trainExample, update_P, update_Q, update_b_u, update_b_i,
    sgdUpdateRow, List.getD_cons_zero, List.getD_cons_succ]
  rw [getD_set_self _ _ _ _ hu]
  exact zipWith_gradStep m.lr (-(exampleErr m s u i click pscore)) m.reg _ _

lemma trainExample_Q_row (m : MFModel) (s : MFParams) (u i : Nat)
    (click pscore : ℚ) (hu : u < s.P.length) (hq : i < s.Q.length) :
    (trainExample m s ([u, i], click, pscore)).Q.getD i []
      = List.zipWith
          (fun q p => q - m.lr * (-(exampleErr m s u i click pscore) * p + m.reg * q))
          (getRow s.Q i)
          (List.zipWith
            (fun p q => p - m.lr * (-(exampleErr m s u i click pscore) * q + m.reg * p))
            (getRow s.P u) (getRow s.Q i)) := by
  simp only [trainExample, update_P, update_Q, update_b_u, update_b_i,
    sgdUpdateRow, getRow, List.getD_cons_zero, List.getD_cons_succ]
  rw [getD_set_self _ _ _ _ hu, getD_set_self _ _ _ _ hq]
  rw [zipWith_gradStep m.lr (-(exampleErr m s u i click pscore)) m.reg]
  rw [zipWith_gradStep m.lr (-(exampleErr m s u i click pscore)) m.reg]

lemma trainExample_bu_val (m : MFModel) (s : MFParams) (u i : Nat)
    (click pscore : ℚ) (hbu : u < s.b_u.length) :
    (trainExample m s ([u, i], click, pscore)).b_u.getD u 0
      = s.b_u.getD u 0
          - m.lr * (-(exampleErr m s u i click pscore) + m.reg * s.b_u.getD u 0) := by
  simp only [trainExample, update_P, update_Q, update_b_u, update_b_i,
    sgdUpdateAt, List.getD_cons_zero, List.getD_cons_succ]
  rw [getD_set_self _ _ _ _ hbu]

lemma trainExample_bi_val (m : MFModel) (s : MFParams) (u i : Nat)
    (click pscore : ℚ) (hbi : i < s.b_i.length) :
    (trainExample m s ([u, i], click, pscore)).b_i.getD i 0
      = s.b_i.getD i 0
          - m.lr * (-(exampleErr m s u i click pscore) + m.reg * s.b_i.getD i 0) := by
  simp only [trainExample, update_P, update_Q, update_b_u, update_b_i,
    sgdUpdateAt, List.getD_cons_zero, List.getD_cons_succ]
  rw [getD_set_self _ _ _ _ hbi]

lemma length_splitBySizes {α : Type _} (sizes : List Nat) :
    ∀ (xs : List α), (splitBySizes sizes xs).length = sizes.length := by
  induction sizes with
  | nil => intro xs; simp [splitBySizes]
  | cons sz rest ih => intro xs; simp [splitBySizes, ih]

lemma length_splitSizes (len n : Nat) (h : 0 < n) :
    (splitSizes len n).length = n := by
  have hm : len % n < n := Nat.mod_lt _ h
  simp [splitSizes]
  omega

lemma sum_splitSizes (len n : Nat) (h : 0 < n) : (splitSizes len n).sum = len := by
  have hm : len % n < n := Nat.mod_lt _ h
  have hd : n * (len / n) + len % n = len := Nat.div_add_mod len n
  simp only [splitSizes, List.sum_append, List.sum_replicate, smul_eq_mul]
  rw [Nat.mul_succ, Nat.sub_mul]
  have h2 : len % n * (len / n) ≤ n * (len / n) :=
    Nat.mul_le_mul_right _ hm.le
  generalize hx : len % n * (len / n) = x at *
  generalize hy : n * (len / n) = y at *
  omega

lemma splitBySizes_flatten {α : Type _} :
    ∀ (sizes : List Nat) (xs : List α), sizes.sum = xs.length →
      (splitBySizes sizes xs).flatten = xs := by
  intro sizes
  induction sizes with
  | nil =>
    intro xs h
    simp only [List.sum_nil] at h
    simp [splitBySizes, (List.length_eq_zero.mp h.symm).symm]
  | cons sz rest ih =>
    intro xs h
    simp only [List.sum_cons] at h
    simp only [splitBySizes, List.flatten_cons]
    rw [ih (xs.drop sz) (by simp; omega)]
    exact List.take_append_drop sz xs

lemma splitBySizes_map_length {α : Type _} :
    ∀ (sizes : List Nat) (xs : List α), sizes.sum ≤ xs.length →
      (splitBySizes sizes xs).map List.length = sizes := by
  intro sizes
  induction sizes with
  | nil => intro xs _; simp [splitBySizes]
  | cons sz rest ih =>
    intro xs h
    simp only [List.sum_cons] at h
    simp only [splitBySizes, List.map_cons]
    rw [List.length_take, min_eq_left (by omega), ih (xs.drop sz) (by simp; omega)]

lemma filterMap_get?_range {α : Type _} (xs : List α) :
    (List.range xs.length).filterMap (fun j => xs.get? j) = xs := by
  induction xs with
  | nil => simp
  | cons a t ih =>
    rw [List.length_cons, List.range_succ_eq_map]
    rw [List.filterMap_cons, List.filterMap_map]
    simpa [Function.comp_def, Nat.succ_eq_add_one, List.getElem?_cons_succ] using ih

lemma applyPerm_perm {α : Type _} (idxs : List Nat) (xs : List α)
    (h : idxs.Perm (List.range xs.length)) : (applyPerm idxs xs).Perm xs := by
  have h2 := h.filterMap (fun j => xs.get? j)
  rw [filterMap_get?_range] at h2
  exact h2

lemma trainExample_preserves_b (m : MFModel) (s : MFParams)
    (ex : List Nat × ℚ × ℚ) : (trainExample m s ex).b = s.b := rfl

lemma foldl_trainExample_b (m : MFModel) :
    ∀ (l : List (List Nat × ℚ × ℚ)) (s : MFParams),
      (l.foldl (trainExample m) s).b = s.b := by
  intro l
  induction l with
  | nil => intro s; rfl
  | cons e t ih => intro s; rw [List.foldl_cons, ih, trainExample_preserves_b]

lemma foldl_runBatch_b (m : MFModel) :
    ∀ (batches : List (List (List Nat) × List ℚ × List ℚ))
      (ac : MFParams × List ℚ),
      ((batches.foldl (runBatch m) ac).1).b = ac.1.b := by
  intro batches
  induction batches with
  | nil => intro ac; rfl
  | cons bt rest ih =>
    intro ac
    rw [List.foldl_cons, ih]
    simp [runBatch, foldl_trainExample_b]

lemma foldl_invariant {α β : Type _} (f : α → β → α) (I : α → Prop)
    (h : ∀ a b, I a → I (f a b)) :
    ∀ (l : List β) (a : α), I a → I (l.foldl f a) := by
  intro l
  induction l with
  | nil => intro a ha; exact ha
  | cons x t ih => intro a ha; exact ih _ (h a x ha)

lemma runEpoch_bias (m : MFModel)
    (batches : List (List (List Nat) × List ℚ × List ℚ)) (val : DataTriple)
    (c : ℚ) (acc : EpochAcc) (h1 : acc.s.b = c)
    (h2 : ∀ p ∈ acc.epochParams, p.b = c) :
    (runEpoch m batches val acc).s.b = c
      ∧ ∀ p ∈ (runEpoch m batches val acc).epochParams, p.b = c := by
  constructor
  · simp only [runEpoch]
    rw [foldl_runBatch_b]
    exact h1
  · intro p hp
    simp only [runEpoch, List.mem_append, List.mem_singleton] at hp
    rcases hp with hp | hp
    · exact h2 p hp
    · subst hp
      rw [foldl_runBatch_b]
      exact h1

lemma map_eq_replicate_of_forall {α β : Type _} (f : α → β) (c : β) :
    ∀ (l : List α), (∀ x ∈ l, f x = c) →
      l.map f = List.replicate l.length c := by
  intro l
  induction l with
  | nil => intro _; rfl
  | cons x t ih =>
    intro h
    simp only [List.map_cons, List.length_cons, List.replicate_succ]
    rw [h x (by simp), ih (fun y hy => h y (by simp [hy]))]

lemma foldl_runBatch_losses (m : MFModel) :
    ∀ (batches : List (List (List Nat) × List ℚ × List ℚ))
      (ac : MFParams × List ℚ),
      ((batches.foldl (runBatch m) ac).2).length = ac.2.length + batches.length := by
  intro batches
  induction batches with
  | nil => intro ac; simp
  | cons bt rest ih =>
    intro ac
    rw [List.foldl_cons, ih]
    simp only [runBatch, List.length_append, List.length_cons, List.length_nil]
    omega

lemma runEpoch_trace (m : MFModel)
    (batches : List (List (List Nat) × List ℚ × List ℚ)) (val : DataTriple)
    (acc : EpochAcc)
    (h1 : acc.trainLoss = acc.batchTrace.map (fun bl => (mean bl, stdDev m bl)))
    (h2 : acc.valLoss = acc.epochParams.map
      (fun p => crossEntropyLoss m val.y (predict m p val.X) val.ps))
    (h3 : ∀ bl ∈ acc.batchTrace, bl.length = batches.length) :
    (runEpoch m batches val acc).trainLoss
        = (runEpoch m batches val acc).batchTrace.map (fun bl => (mean bl, stdDev m bl))
      ∧ (runEpoch m batches val acc).valLoss
          = (runEpoch m batches val acc).epochParams.map
              (fun p => crossEntropyLoss m val.y (predict m p val.X) val.ps)
      ∧ ∀ bl ∈ (runEpoch m batches val acc).batchTrace,
          bl.length = batches.length := by
  refine ⟨?_, ?_, ?_⟩
  · simp only [runEpoch, List.map_append, List.map_cons, List.map_nil]
    rw [h1]
  · simp only [runEpoch, List.map_append, List.map_cons, List.map_nil]
    rw [h2]
  · intro bl hbl
    simp only [runEpoch, List.mem_append, List.mem_singleton] at hbl
    rcases hbl with hbl | hbl
    · exact h3 bl hbl
    · subst hbl
      simpa using foldl_runBatch_losses m batches (acc.s, [])

lemma runEpoch_step_lengths (m : MFModel)
    (batches : List (List (List Nat) × List ℚ × List ℚ)) (val : DataTriple)
    (acc : EpochAcc) :
    (runEpoch m batches val acc).trainLoss.length = acc.trainLoss.length + 1
      ∧ (runEpoch m batches val acc).valLoss.length = acc.valLoss.length + 1
      ∧ (runEpoch m batches val acc).batchTrace.length = acc.batchTrace.length + 1
      ∧ (runEpoch m batches val acc).epochParams.length
          = acc.epochParams.length + 1 := by
  refine ⟨?_, ?_, ?_, ?_⟩ <;> simp [runEpoch]

lemma foldl_runEpoch_lengths (m : MFModel)
    (batches : List (List (List Nat) × List ℚ × List ℚ)) (val : DataTriple) :
    ∀ (n : Nat) (acc : EpochAcc),
      ((List.range n).foldl (fun a (_ : Nat) => runEpoch m batches val a)
          acc).trainLoss.length = acc.trainLoss.length + n
        ∧ ((List.range n).foldl (fun a (_ : Nat) => runEpoch m batches val a)
            acc).valLoss.length = acc.valLoss.length + n
        ∧ ((List.range n).foldl (fun a (_ : Nat) => runEpoch m batches val a)
            acc).batchTrace.length = acc.batchTrace.length + n
        ∧ ((List.range n).foldl (fun a (_ : Nat) => runEpoch m batches val a)
            acc).epochParams.length = acc.epochParams.length + n := by
  intro n
  induction n with
  | zero => intro acc; simp
  | succ k ih =>
    intro acc
    rw [List.range_succ]
    simp only [List.foldl_append, List.foldl_cons, List.foldl_nil]
    obtain ⟨h1, h2, h3, h4⟩ := ih acc
    obtain ⟨g1, g2, g3, g4⟩ := runEpoch_step_lengths m batches val
      ((List.range k).foldl (fun a (_ : Nat) => runEpoch m batches val a) acc)
    refine ⟨?_, ?_, ?_, ?_⟩
    · rw [g1, h1]; omega
    · rw [g2, h2]; omega
    · rw [g3, h3]; omega
    · rw [g4, h4]; omega

lemma getBatchData_ok_elim (m : MFModel) (X : List (List Nat)) (y ps : List ℚ)
    (bd : List (List (List Nat)) × List (List ℚ) × List (List ℚ))
    (h : getBatchData m X y ps = Except.ok bd) :
    (X.length = y.length ∧ y.length = ps.length)
      ∧ bd = (arraySplit (applyPerm (m.shufflePerm X.length) X)
                ((applyPerm (m.shufflePerm X.length) X).length / m.batch_size + 1),
              arraySplit (applyPerm (m.shufflePerm X.length) y)
                ((applyPerm (m.shufflePerm X.length) y).length / m.batch_size + 1),
              arraySplit (applyPerm (m.shufflePerm X.length) ps)
                ((applyPerm (m.shufflePerm X.length) ps).length / m.batch_size + 1)) := by
  by_cases hc : X.length = y.length ∧ y.length = ps.length
  · refine ⟨hc, ?_⟩
    simp only [getBatchData] at h
    rw [if_pos hc] at h
    exact (Except.ok.inj h).symm
  · exfalso
    simp only [getBatchData] at h
    rw [if_neg hc] at h
    exact Except.noConfusion h

/-! Claim theorems. -/

/-- C1 (amended): for every training example `(user u, item i)` with label
`click` and propensity `pscore` handled inside `fit`, the model computes
`err = click/pscore - predicted_probability` and the `P[u]` update is the
gradient-descent step with gradient `-err*Q[i] + reg*P[u]`, that is,
coordinatewise `P[u][k] - lr * (-err * Q[i][k] + reg * P[u][k])`. At the
spec's worked scenario (`err = 0.2`, `reg = 0.01`, `P[u] = [1,1]`,
`Q[i] = [2,2]`, `lr = 0.1`), this step yields `[1.039, 1.039]`, not the
spec's `[1.0396, 1.0396]`. -/
theorem c1_updateP_gradient_step (m : MFModel) (s : MFParams) (u i : Nat)
    (click pscore : ℚ) (hu : u < s.P.length) :
    (trainExample m s ([u, i], click, pscore)).P.getD u []
      = List.zipWith
          (fun p q => p - m.lr * (-(exampleErr m s u i click pscore) * q + m.reg * p))
          (getRow s.P u) (getRow s.Q i) :=
  trainExample_P_row m s u i click pscore hu

/-- C1 witness: the worked scenario. With `sigmoid` evaluating to `0`,
`click = 1`, `pscore = 5` give `err = 1/5 - 0 = 0.2`; the updated first
row of `P` is `[1.039, 1.039] = [1039/1000, 1039/1000]`. -/
theorem c1_updateP_gradient_step_witness :
    0 < cParams1.P.length
      ∧ (trainExample cModel1 cParams1 ([0, 0], 1, 5)).P.getD 0 []
          = [1039/1000, 1039/1000] := by
  constructor
  · simp [cParams1]
  · rw [c1_updateP_gradient_step cModel1 cParams1 0 0 1 5 (by simp [cParams1])]
    norm_num [cModel1, cParams1, exampleErr, predictPair, getRow, dot, cZeroFun]

/-- C1 counterexample: `_update_P` at the spec's worked scenario
(`err = 0.2`, `reg = 0.01`, `P[u] = [1,1]`, `Q[i] = [2,2]`, `lr = 0.1`)
returns `[1039/1000, 1039/1000] = [1.039, 1.039]`, which is not the
`[1.0396, 1.0396]` the claim asserts: the claim's own arithmetic
`[1,1] - 0.1*(-0.2*[2,2] + 0.01*[1,1])` evaluates to `[1.039, 1.039]`. -/
theorem c1_worked_value_refuted :
    (update_P cModel1 cParams1 0 0 (1/5)).P.getD 0 [] = [1039/1000, 1039/1000]
      ∧ (update_P cModel1 cParams1 0 0 (1/5)).P.getD 0 []
          ≠ [10396/10000, 10396/10000] := by
  constructor
  · norm_num [update_P, sgdUpdateRow, vadd, smul, getRow, cModel1, cParams1]
  · norm_num [update_P, sgdUpdateRow, vadd, smul, getRow, cModel1, cParams1]

/-- C2 (amended): within one training example, `err` and the `P[u]`
gradient are computed from the pre-update parameter values, and the two
bias gradients read their own pre-update entries; but the `Q[i]` gradient
reads the ALREADY-UPDATED row `P[u]` (the row the example's `_update_P`
call just wrote), because `fit` calls `_update_P` before `_update_Q` and
`_update_Q` re-reads `self.P(user_id)`. Updates across different examples
are applied sequentially (the example loop is a sequential fold). -/
theorem c2_read_order (m : MFModel) (s : MFParams) (u i : Nat)
    (click pscore : ℚ) (hu : u < s.P.length) (hq : i < s.Q.length)
    (hbu : u < s.b_u.length) (hbi : i < s.b_i.length) :
    (trainExample m s ([u, i], click, pscore)).P.getD u []
        = List.zipWith
            (fun p q => p - m.lr * (-(exampleErr m s u i click pscore) * q + m.reg * p))
            (getRow s.P u) (getRow s.Q i)
      ∧ (trainExample m s ([u, i], click, pscore)).Q.getD i []
          = List.zipWith
              (fun q p => q - m.lr * (-(exampleErr m s u i click pscore) * p + m.reg * q))
              (getRow s.Q i)
              ((trainExample m s ([u, i], click, pscore)).P.getD u [])
      ∧ (trainExample m s ([u, i], click, pscore)).b_u.getD u 0
          = s.b_u.getD u 0
              - m.lr * (-(exampleErr m s u i click pscore) + m.reg * s.b_u.getD u 0)
      ∧ (trainExample m s ([u, i], click, pscore)).b_i.getD i 0
          = s.b_i.getD i 0
              - m.lr * (-(exampleErr m s u i click pscore) + m.reg * s.b_i.getD i 0) := by
  refine ⟨trainExample_P_row m s u i click pscore hu, ?_,
    trainExample_bu_val m s u i click pscore hbu,
    trainExample_bi_val m s u i click pscore hbi⟩
  rw [trainExample_P_row m s u i click pscore hu]
  exact trainExample_Q_row m s u i click pscore hu hq

/-- C2 witness: the read-order characterization applied at the concrete
one-user-one-item state `P=[[1]]`, `Q=[[2]]`, `b_u=[3]`, `b_i=[4]` with
`lr = 1`, `reg = 0`. -/
theorem c2_read_order_witness :
    (trainExample cModel2 cParams2 ([0, 0], 1, 1)).P.getD 0 []
        = List.zipWith
            (fun p q => p - cModel2.lr
              * (-(exampleErr cModel2 cParams2 0 0 1 1) * q + cModel2.reg * p))
            (getRow cParams2.P 0) (getRow cParams2.Q 0)
      ∧ (trainExample cModel2 cParams2 ([0, 0], 1, 1)).Q.getD 0 []
          = List.zipWith
              (fun q p => q - cModel2.lr
                * (-(exampleErr cModel2 cParams2 0 0 1 1) * p + cModel2.reg * q))
              (getRow cParams2.Q 0)
              ((trainExample cModel2 cParams2 ([0, 0], 1, 1)).P.getD 0 [])
      ∧ (trainExample cModel2 cParams2 ([0, 0], 1, 1)).b_u.getD 0 0
          = cParams2.b_u.getD 0 0
              - cModel2.lr * (-(exampleErr cModel2 cParams2 0 0 1 1)
                + cModel2.reg * cParams2.b_u.getD 0 0)
      ∧ (trainExample cModel2 cParams2 ([0, 0], 1, 1)).b_i.getD 0 0
          = cParams2.b_i.getD 0 0
              - cModel2.lr * (-(exampleErr cModel2 cParams2 0 0 1 1)
                + cModel2.reg * cParams2.b_i.getD 0 0) :=
  c2_read_order cModel2 cParams2 0 0 1 1
    (by simp [cParams2]) (by simp [cParams2]) (by simp [cParams2]) (by simp [cParams2])

/-- C2 counterexample: with `lr = 1`, `reg = 0`, `P = [[1]]`, `Q = [[2]]`
and `err = 1`, the code leaves `Q = [[5]]` (its `Q`-gradient read the
already-updated `P[0] = [3]`), while strict read-before-write semantics
(`trainExamplePre`) leaves `Q = [[3]]`; the two disagree, so not all four
gradient computations read pre-update values. -/
theorem c2_read_before_write_refuted :
    (trainExample cModel2 cParams2 ([0, 0], 1, 1)).Q = [[5]]
      ∧ (trainExamplePre cModel2 cParams2 ([0, 0], 1, 1)).Q = [[3]]
      ∧ (trainExample cModel2 cParams2 ([0, 0], 1, 1)).Q
          ≠ (trainExamplePre cModel2 cParams2 ([0, 0], 1, 1)).Q := by
  refine ⟨?_, ?_, ?_⟩ <;>
    norm_num [trainExample, trainExamplePre, update_P, update_Q, update_b_u,
      update_b_i, sgdUpdateRow, sgdUpdateAt, vadd, smul, getRow, exampleErr,
      predictPair, dot, cModel2, cParams2, cZeroFun]

/-- C3 (amended): `fit` shuffles and batches the training triple exactly
once, before the epoch loop, and every epoch reuses the same batch list:
whenever `fit` succeeds, the number of `_get_batch_data` invocations it
performed is `1` (not one per epoch). -/
theorem c3_fit_shuffles_once (m : MFModel) (s0 : MFParams)
    (train val : DataTriple) :
    (fit m s0 train val).map (fun r => r.shuffleCalls)
      = (fit m s0 train val).map (fun _ => 1) := by
  cases h : getBatchData m train.X train.y train.ps <;> simp [fit, h, Except.map]

/-- C3 counterexample: a successful two-epoch `fit` run performs exactly
one shuffle+batch step, while the claim (one shuffle+batch per epoch)
requires two. -/
theorem c3_per_epoch_shuffle_refuted :
    (fit cModel3 cParams2 cTrain3 cVal3).map (fun r => r.shuffleCalls)
        = Except.ok 1
      ∧ cModel3.n_epochs = 2 ∧ (1 : Nat) ≠ 2 := by
  refine ⟨?_, rfl, by decide⟩
  rfl

/-- C7 (confirmed): the predicted probability of a pair `(u, i)` is
`sigmoid(dot(P[u], Q[i]) + b_u[u] + b_i[i] + b)`, and `predict` maps a
feature matrix to the list of per-row pair predictions, reading the user
id from column 0 and the item id from column 1. -/
theorem c7_predict_formula (m : MFModel) (s : MFParams) (X : List (List Nat)) :
    predict m s X
      = X.map (fun row =>
          m.sigmoid
            (dot (getRow s.P (row.getD 0 0)) (getRow s.Q (row.getD 1 0))
              + s.b_u.getD (row.getD 0 0) 0 + s.b_i.getD (row.getD 1 0) 0 + s.b)) := by
  simp [predict, List.zip_map', predictPair]

/-- C9 (confirmed): if the three training arrays do not all share one
length, `fit` fails immediately with the `ValueError` that
`sklearn.utils.shuffle` raises inside `_get_batch_data` (the first thing
`fit` does with the training data), rather than training on truncated
data. -/
theorem c9_fit_misaligned_error (m : MFModel) (s0 : MFParams)
    (train val : DataTriple)
    (h : ¬(train.X.length = train.y.length ∧ train.y.length = train.ps.length)) :
    fit m s0 train val = Except.error lengthMismatchError := by
  simp [fit, getBatchData, h]

/-- C9 witness: arrays of lengths 1, 2, 1 make `fit` fail with the
length-mismatch error. -/
theorem c9_fit_misaligned_error_witness :
    ¬(cTrain9.X.length = cTrain9.y.length ∧ cTrain9.y.length = cTrain9.ps.length)
      ∧ fit cModel3 cParams2 cTrain9 cVal3 = Except.error lengthMismatchError :=
  ⟨by decide, c9_fit_misaligned_error cModel3 cParams2 cTrain9 cVal3 (by decide)⟩

/-- C10 (confirmed): a `fit` call leaves the caller-owned train and
validation arrays untouched: in the explicit-heap rendering `fitWorld`,
only the model-owned parameter cells change. -/
theorem c10_fit_frame_caller_arrays (m : MFModel) (w : World) :
    ((fitWorld m w).2).callerTrain = w.callerTrain
      ∧ ((fitWorld m w).2).callerVal = w.callerVal := by
  cases h : fit m w.params w.callerTrain w.callerVal <;> simp [fitWorld, h]

/-- C5 (confirmed): on aligned arrays of length `L` and a positive
`batch_size B`, and with the seeded shuffle being a permutation of the
index range, `_get_batch_data` succeeds with exactly `L / B + 1` batches
per array, and concatenating the batches of each array in order yields a
permutation of that input array: no row dropped, no row duplicated. -/
theorem c5_getBatchData_partition (m : MFModel) (X : List (List Nat))
    (y ps : List ℚ) (hB : 0 < m.batch_size) (hxy : X.length = y.length)
    (hyp2 : y.length = ps.length)
    (hperm : (m.shufflePerm X.length).Perm (List.range X.length)) :
    ∃ bX bY bP,
      getBatchData m X y ps = Except.ok (bX, bY, bP)
        ∧ bX.length = X.length / m.batch_size + 1
        ∧ bY.length = X.length / m.batch_size + 1
        ∧ bP.length = X.length / m.batch_size + 1
        ∧ bX.flatten.Perm X ∧ bY.flatten.Perm y ∧ bP.flatten.Perm ps := by
  have hpx : (applyPerm (m.shufflePerm X.length) X).Perm X := applyPerm_perm _ _ hperm
  have hpy : (applyPerm (m.shufflePerm X.length) y).Perm y :=
    applyPerm_perm _ _ (by rwa [← hxy])
  have hpp : (applyPerm (m.shufflePerm X.length) ps).Perm ps :=
    applyPerm_perm _ _ (by rw [← hyp2, ← hxy]; exact hperm)
  have hlx := hpx.length_eq
  have hly := hpy.length_eq
  have hlp := hpp.length_eq
  refine
    ⟨arraySplit (applyPerm (m.shufflePerm X.length) X)
        ((applyPerm (m.shufflePerm X.length) X).length / m.batch_size + 1),
      arraySplit (applyPerm (m.shufflePerm X.length) y)
        ((applyPerm (m.shufflePerm X.length) y).length / m.batch_size + 1),
      arraySplit (applyPerm (m.shufflePerm X.length) ps)
        ((applyPerm (m.shufflePerm X.length) ps).length / m.batch_size + 1),
      ?_, ?_, ?_, ?_, ?_, ?_, ?_⟩
  · simp only [getBatchData]
    rw [if_pos ⟨hxy, hyp2⟩]
  · rw [arraySplit, length_splitBySizes, length_splitSizes _ _ (Nat.succ_pos _), hlx]
  · rw [arraySplit, length_splitBySizes, length_splitSizes _ _ (Nat.succ_pos _), hly,
      ← hxy]
  · rw [arraySplit, length_splitBySizes, length_splitSizes _ _ (Nat.succ_pos _), hlp,
      ← hyp2, ← hxy]
  · rw [arraySplit, splitBySizes_flatten _ _ (sum_splitSizes _ _ (Nat.succ_pos _))]
    exact hpx
  · rw [arraySplit, splitBySizes_flatten _ _ (sum_splitSizes _ _ (Nat.succ_pos _))]
    exact hpy
  · rw [arraySplit, splitBySizes_flatten _ _ (sum_splitSizes _ _ (Nat.succ_pos _))]
    exact hpp

/-- C5 witness: three aligned rows, `batch_size = 2` and the reversing
permutation give `3 / 2 + 1 = 2` batches per array whose concatenations
are permutations of the inputs. -/
theorem c5_getBatchData_partition_witness :
    0 < cModel5.batch_size
      ∧ ∃ bX bY bP,
          getBatchData cModel5 cX5 cy5 cps5 = Except.ok (bX, bY, bP)
            ∧ bX.length = cX5.length / cModel5.batch_size + 1
            ∧ bY.length = cX5.length / cModel5.batch_size + 1
            ∧ bP.length = cX5.length / cModel5.batch_size + 1
            ∧ bX.flatten.Perm cX5 ∧ bY.flatten.Perm cy5 ∧ bP.flatten.Perm cps5 :=
  ⟨by decide,
    c5_getBatchData_partition cModel5 cX5 cy5 cps5 (by decide) (by decide) (by decide)
      (by simpa [cModel5, cPermRev, cX5] using (List.range 3).reverse_perm)⟩

/-- C6 (amended): `_get_batch_data` cuts each shuffled array into exactly
`L // batch_size + 1` contiguous batches — not `ceil(L / batch_size)`,
from which it differs exactly when `batch_size` divides `L` — whose sizes
follow `np.array_split`: the FIRST `L mod n` batches (where
`n = L // batch_size + 1`) have one extra element and the remaining ones
hold `L / n` elements, so the batches are near-equal (all sizes are
`L / n` or `L / n + 1`) and the boundaries are a function of the array
length and `batch_size` alone, hence reproducible for a fixed seed. -/
theorem c6_getBatchData_sizes (m : MFModel) (X : List (List Nat))
    (y ps : List ℚ) (hB : 0 < m.batch_size) (hxy : X.length = y.length)
    (hyp2 : y.length = ps.length)
    (hperm : (m.shufflePerm X.length).Perm (List.range X.length)) :
    ∃ bX bY bP,
      getBatchData m X y ps = Except.ok (bX, bY, bP)
        ∧ bX.length = X.length / m.batch_size + 1
        ∧ bX.map List.length = splitSizes X.length (X.length / m.batch_size + 1)
        ∧ bY.map List.length = splitSizes X.length (X.length / m.batch_size + 1)
        ∧ bP.map List.length = splitSizes X.length (X.length / m.batch_size + 1)
        ∧ ∀ sz ∈ splitSizes X.length (X.length / m.batch_size + 1),
            sz = X.length / (X.length / m.batch_size + 1)
              ∨ sz = X.length / (X.length / m.batch_size + 1) + 1 := by
  have hlx := (applyPerm_perm (m.shufflePerm X.length) X hperm).length_eq
  have hly := (applyPerm_perm (m.shufflePerm X.length) y
    (by rwa [← hxy])).length_eq
  have hlp := (applyPerm_perm (m.shufflePerm X.length) ps
    (by rw [← hyp2, ← hxy]; exact hperm)).length_eq
  refine
    ⟨arraySplit (applyPerm (m.shufflePerm X.length) X)
        ((applyPerm (m.shufflePerm X.length) X).length / m.batch_size + 1),
      arraySplit (applyPerm (m.shufflePerm X.length) y)
        ((applyPerm (m.shufflePerm X.length) y).length / m.batch_size + 1),
      arraySplit (applyPerm (m.shufflePerm X.length) ps)
        ((applyPerm (m.shufflePerm X.length) ps).length / m.batch_size + 1),
      ?_, ?_, ?_, ?_, ?_, ?_⟩
  · simp only [getBatchData]
    rw [if_pos ⟨hxy, hyp2⟩]
  · rw [arraySplit, length_splitBySizes, length_splitSizes _ _ (Nat.succ_pos _), hlx]
  · rw [arraySplit,
      splitBySizes_map_length _ _ (le_of_eq (sum_splitSizes _ _ (Nat.succ_pos _))),
      hlx]
  · rw [arraySplit,
      splitBySizes_map_length _ _ (le_of_eq (sum_splitSizes _ _ (Nat.succ_pos _))),
      hly, ← hxy]
  · rw [arraySplit,
      splitBySizes_map_length _ _ (le_of_eq (sum_splitSizes _ _ (Nat.succ_pos _))),
      hlp, ← hyp2, ← hxy]
  · intro sz hsz
    simp only [splitSizes, List.mem_append, List.mem_replicate] at hsz
    rcases hsz with h1 | h1
    · right; exact h1.2
    · left; exact h1.2

/-- C6 witness: the size characterization on three aligned rows with
`batch_size = 2` and the reversing permutation (`3 // 2 + 1 = 2` batches
of sizes `[2, 1]`). -/
theorem c6_getBatchData_sizes_witness :
    0 < cModel5.batch_size
      ∧ ∃ bX bY bP,
          getBatchData cModel5 cX5 cy5 cps5 = Except.ok (bX, bY, bP)
            ∧ bX.length = cX5.length / cModel5.batch_size + 1
            ∧ bX.map List.length = splitSizes cX5.length (cX5.length / cModel5.batch_size + 1)
            ∧ bY.map List.length = splitSizes cX5.length (cX5.length / cModel5.batch_size + 1)
            ∧ bP.map List.length = splitSizes cX5.length (cX5.length / cModel5.batch_size + 1)
            ∧ ∀ sz ∈ splitSizes cX5.length (cX5.length / cModel5.batch_size + 1),
                sz = cX5.length / (cX5.length / cModel5.batch_size + 1)
                  ∨ sz = cX5.length / (cX5.length / cModel5.batch_size + 1) + 1 :=
  ⟨by decide,
    c6_getBatchData_sizes cModel5 cX5 cy5 cps5 (by decide) (by decide) (by decide)
      (by simpa [cModel5, cPermRev, cX5] using (List.range 3).reverse_perm)⟩

/-- C6 counterexample: on 4 aligned rows with `batch_size = 2`,
`_get_batch_data` produces `4 // 2 + 1 = 3` batches, while
`ceil(4 / 2) = 2`: the claimed `ceil(n/batch_size)` batch count is wrong
whenever `batch_size` divides the length. -/
theorem c6_ceil_count_refuted :
    (getBatchData cModel6 cX6 cy6 cps6).map (fun t => t.1.length) = Except.ok 3
      ∧ (cX6.length + cModel6.batch_size - 1) / cModel6.batch_size = 2
      ∧ (3 : Nat) ≠ 2 := by
  refine ⟨?_, by decide, by decide⟩
  rfl

/-- C8 (confirmed): no per-example update touches the global bias `b`
(first conjunct), and whenever `fit` runs, it sets `b` to
`np.mean(train_y)` at the start and `b` still equals that mean in the
state at the end of every epoch and in the final trained parameters
(second conjunct, stated on both sides of the success/failure split). -/
theorem c8_fit_global_bias_constant (m : MFModel) (s0 : MFParams)
    (train val : DataTriple) :
    (∀ (s : MFParams) (ex : List Nat × ℚ × ℚ), (trainExample m s ex).b = s.b)
      ∧ (fit m s0 train val).map
            (fun r => (r.params.b, r.epochParams.map MFParams.b))
          = (fit m s0 train val).map
              (fun r => (mean train.y,
                List.replicate r.epochParams.length (mean train.y))) := by
  refine ⟨fun s ex => rfl, ?_⟩
  cases hbd : getBatchData m train.X train.y train.ps with
  | error e => simp [fit, hbd, Except.map]
  | ok bd =>
    simp only [fit, Except.map, hbd]
    have hinv :=
      foldl_invariant
        (fun (acc : EpochAcc) (_ : Nat) => runEpoch m (zip3 bd.1 bd.2.1 bd.2.2) val acc)
        (fun acc => acc.s.b = mean train.y ∧ ∀ p ∈ acc.epochParams, p.b = mean train.y)
        (fun acc k hk => runEpoch_bias m _ val (mean train.y) acc hk.1 hk.2)
        (List.range m.n_epochs)
        { s := { s0 with b := mean train.y }, trainLoss := [], valLoss := [],
          batchTrace := [], epochParams := [] }
        ⟨rfl, by simp⟩
    obtain ⟨h1, h2⟩ := hinv
    simp only [Except.ok.injEq, Prod.mk.injEq]
    exact ⟨h1, map_eq_replicate_of_forall MFParams.b (mean train.y) _ h2⟩

/-- C4 (amended): a successful `fit` returns a train trace that is a FLAT
sequence with exactly one `(mean, std)` pair per epoch — the mean and the
standard deviation taken ACROSS that epoch's per-batch mean cross-entropy
losses (`batchLossTrace`, one scalar per batch) — together with a flat
validation trace holding exactly one cross-entropy scalar per epoch
computed over the whole validation split with the epoch-end parameters. -/
theorem c4_fit_loss_traces (m : MFModel) (s0 : MFParams)
    (train val : DataTriple) (r : FitResult)
    (h : fit m s0 train val = Except.ok r)
    (hperm : (m.shufflePerm train.X.length).Perm (List.range train.X.length)) :
    r.trainLoss = r.batchLossTrace.map (fun bl => (mean bl, stdDev m bl))
      ∧ r.valLoss = r.epochParams.map
          (fun p => crossEntropyLoss m val.y (predict m p val.X) val.ps)
      ∧ r.trainLoss.length = m.n_epochs
      ∧ r.valLoss.length = m.n_epochs
      ∧ ∀ bl ∈ r.batchLossTrace,
          bl.length = train.X.length / m.batch_size + 1 := by
  cases hbd : getBatchData m train.X train.y train.ps with
  | error e => simp [fit, hbd] at h
  | ok bd =>
    obtain ⟨⟨hxy, hyp2⟩, hbdv⟩ := getBatchData_ok_elim m train.X train.y train.ps bd hbd
    have hlx := (applyPerm_perm (m.shufflePerm train.X.length) train.X hperm).length_eq
    have hly := (applyPerm_perm (m.shufflePerm train.X.length) train.y
      (by rwa [← hxy])).length_eq
    have hlp := (applyPerm_perm (m.shufflePerm train.X.length) train.ps
      (by rw [← hyp2, ← hxy]; exact hperm)).length_eq
    have hbat : (zip3 bd.1 bd.2.1 bd.2.2).length
        = train.X.length / m.batch_size + 1 := by
      subst hbdv
      simp only [zip3, List.length_zip, arraySplit]
      rw [length_splitBySizes, length_splitBySizes, length_splitBySizes,
        length_splitSizes _ _ (Nat.succ_pos _), length_splitSizes _ _ (Nat.succ_pos _),
        length_splitSizes _ _ (Nat.succ_pos _), hlx, hly, hlp, ← hyp2, ← hxy]
      simp
    simp only [fit, hbd] at h
    have hr := (Except.ok.inj h).symm
    have hinv :=
      foldl_invariant
        (fun (acc : EpochAcc) (_ : Nat) => runEpoch m (zip3 bd.1 bd.2.1 bd.2.2) val acc)
        (fun acc =>
          acc.trainLoss = acc.batchTrace.map (fun bl => (mean bl, stdDev m bl))
            ∧ acc.valLoss = acc.epochParams.map
                (fun p => crossEntropyLoss m val.y (predict m p val.X) val.ps)
            ∧ ∀ bl ∈ acc.batchTrace, bl.length = (zip3 bd.1 bd.2.1 bd.2.2).length)
        (fun acc k hk => runEpoch_trace m _ val acc hk.1 hk.2.1 hk.2.2)
        (List.range m.n_epochs)
        { s := { s0 with b := mean train.y }, trainLoss := [], valLoss := [],
          batchTrace := [], epochParams := [] }
        ⟨rfl, rfl, by simp⟩
    have hlen := foldl_runEpoch_lengths m (zip3 bd.1 bd.2.1 bd.2.2) val m.n_epochs
      { s := { s0 with b := mean train.y }, trainLoss := [], valLoss := [],
        batchTrace := [], epochParams := [] }
    obtain ⟨i1, i2, i3⟩ := hinv
    obtain ⟨l1, l2, l3, l4⟩ := hlen
    rw [hr]
    refine ⟨i1, i2, by simpa using l1, by simpa using l2, ?_⟩
    intro bl hbl
    exact (i3 bl hbl).trans hbat

/-- C4 witness: a successful one-epoch, two-batch run whose traces have
the proved shape. -/
theorem c4_fit_loss_traces_witness :
    ∃ r, fit cModel4 cParams2 cTrain4 cVal3 = Except.ok r
      ∧ r.trainLoss = r.batchLossTrace.map (fun bl => (mean bl, stdDev cModel4 bl))
      ∧ r.trainLoss.length = cModel4.n_epochs
      ∧ r.valLoss.length = cModel4.n_epochs
      ∧ ∀ bl ∈ r.batchLossTrace,
          bl.length = cTrain4.X.length / cModel4.batch_size + 1 := by
  obtain ⟨r, hr⟩ : ∃ r, fit cModel4 cParams2 cTrain4 cVal3 = Except.ok r := ⟨_, rfl⟩
  have h := c4_fit_loss_traces cModel4 cParams2 cTrain4 cVal3 r hr (List.Perm.refl _)
  exact ⟨r, hr, h.1, h.2.2.1, h.2.2.2.1, h.2.2.2.2⟩

/-- C4 counterexample: in a successful one-epoch run with two batches,
the returned train trace holds exactly ONE `(mean, std)` pair for the
epoch (aggregated across the two batch losses), not one pair per batch:
the claim's per-epoch list would need 2 pairs where the code records 1. -/
theorem c4_per_batch_pairs_refuted :
    (fit cModel4 cParams2 cTrain4 cVal3).map
        (fun r => (r.trainLoss.length, r.batchLossTrace.map List.length))
      = Except.ok (1, [2])
      ∧ (1 : Nat) ≠ 2 := by
  refine ⟨?_, by decide⟩
  rfl

end MF
